import Mathlib

/-!
Verification of the Purrfect Universe NFT marketplace contracts.

The development shallowly embeds the marketplace entry points of two source
revisions:

* `PUM` — the newest marketplace (v2.2, with the bids system): `sellOffer`,
  `removeSellOffer`, `buyOffer`, `autonomousDeleteOffer`, `placeBid`,
  `acceptBid`, `resetBids` and `calculateMarketplaceFee`.
* `MKT` — the earlier fee-parameterised marketplace (no bids):
  `sellOffer`, `removeSellOffer`, `buyOffer`.

Native `u64` quantities (prices, amounts, timestamps, fees) are `Nat` with
explicit wrap-around `% 2^64` where the source performs unsigned arithmetic.
Persistent storage is a string-keyed association list, so that the
prefix-scan used by the bid-reset loop (`Storage.getKeys(prefix)`) is
modelled byte-faithfully on the deterministic key strings built by the key
generators.  Each entry point takes the execution context (`Env`: caller,
callee, timestamp, attached coins, and the external collection contract's
read-only oracle functions) and the contract state, and returns either an
abort message (`Except.error`, the assert messages of the source; the Massa
runtime rolls back every state change of an aborted call, so an error result
carries no state) or the new state together with the list of coin transfers
and scheduled autonomous messages emitted by the call.  External calls that
return data (`ownerOf`, `isApprovedForAll`, `isAddressEoa`) are supplied by
`Env`; the external `transferFrom` invocation mutates only the collection
contract, not the marketplace state, and is modelled as succeeding.
`Storage.del` is modelled as removal of the key (a no-op when absent).
-/

namespace Market

/-- Modulus of native unsigned 64-bit arithmetic. -/
def U64LIM : Nat := 2 ^ 64

/-- `u64` addition with wrap-around. -/
def u64add (a b : Nat) : Nat := (a + b) % U64LIM

/-- `u64` subtraction with wrap-around. -/
def u64sub (a b : Nat) : Nat := (a + U64LIM - b % U64LIM) % U64LIM

/-- `u64` multiplication with wrap-around. -/
def u64mul (a b : Nat) : Nat := (a * b) % U64LIM

/-- A stored sell offer (class `SellOffer` of `marketplace-complex`). -/
structure SellOffer where
  collectionAddress : String
  tokenId : String
  price : Nat
  creatorAddress : String
  expirationTime : Nat
  createdTime : Nat
deriving Repr, DecidableEq

/-- A stored bid (class `Bid` of `marketplace-complex`). -/
structure Bid where
  bidder : String
  amount : Nat
  timestamp : Nat
deriving Repr, DecidableEq

/-- A deferred self-call scheduled through `sendMessage`. -/
structure AscMessage where
  func : String
  startPeriod : Nat
  startThread : Nat
  endPeriod : Nat
  endThread : Nat
  argCollection : String
  argTokenId : Nat
deriving Repr, DecidableEq

/-- Persistent marketplace state: the fee and owner configuration entries,
the set of registered collection addresses (presence of the
`collection_`-keyed records) and the sell-offer and bid stores, keyed by the
deterministic key strings. -/
structure State where
  marketplaceFee : Nat
  marketplaceOwner : String
  collections : List String
  offers : List (String × SellOffer)
  bids : List (String × Bid)
deriving Repr, DecidableEq

/-- Execution context of one call: `Context.caller`, `Context.callee`,
`Context.timestamp`, `Context.transferredCoins`, and the external collection
contract's read-only responses. -/
structure Env where
  caller : String
  callee : String
  timestamp : Nat
  transferredCoins : Nat
  ownerOf : String → Nat → String
  isApprovedForAll : String → String → String → Bool
  isAddressEoa : String → Bool

/-- Result of a successful call: the new state, the coin transfers performed
(recipient, amount) in execution order, and the autonomous messages sent. -/
structure CallResult where
  state : State
  transfers : List (String × Nat)
  messages : List AscMessage
deriving Repr, DecidableEq

/-- `Storage.has` on an association list. -/
def storeHas {α : Type} (l : List (String × α)) (k : String) : Bool :=
  l.any (fun kv => kv.1 == k)

/-- `Storage.get` on an association list. -/
def storeGet? {α : Type} (l : List (String × α)) (k : String) : Option α :=
  (l.find? (fun kv => kv.1 == k)).map (fun kv => kv.2)

/-- `Storage.set` on an association list: the key holds exactly the new
value afterwards. -/
def storeSet {α : Type} (l : List (String × α)) (k : String) (v : α) :
    List (String × α) :=
  (k, v) :: l.filter (fun kv => !(kv.1 == k))

/-- `Storage.del` on an association list. -/
def storeDel {α : Type} (l : List (String × α)) (k : String) :
    List (String × α) :=
  l.filter (fun kv => !(kv.1 == k))

/-- Whether the character list `p` is an initial segment of `s`. -/
def listStarts : List Char → List Char → Bool
  | [], _ => true
  | _ :: _, [] => false
  | a :: as, b :: bs => a == b && listStarts as bs

/-- Whether the key string `s` starts with `p` (byte-faithful model of the
`Storage.getKeys(prefix)` selection). -/
def strStarts (s p : String) : Bool := listStarts p.data s.data

/-- Whether a call aborted. -/
def isOk (r : Except String CallResult) : Bool :=
  match r with
  | .ok _ => true
  | .error _ => false

/-- Sell-offer key generator (`_keyGenerator`): `sellOffer_<c>_<tokenId>`. -/
def _keyGenerator (address : String) (tokenID : Nat) : String :=
  "sellOffer_" ++ address ++ "_" ++ toString tokenID

/-- The key range scanned by `resetBids`: `bid_<c>_<tokenId>`. -/
def _bidKeyHead (collectionAddress : String) (tokenID : Nat) : String :=
  "bid_" ++ collectionAddress ++ "_" ++ toString tokenID

/-- Bid key generator (`_bidKeyGenerator`): `bid_<c>_<tokenId>_<bidder>`. -/
def _bidKeyGenerator (collectionAddress : String) (tokenID : Nat)
    (bidder : String) : String :=
  _bidKeyHead collectionAddress tokenID ++ "_" ++ bidder

/-- `_hasCollection`: whether a `collection_`-keyed record exists. -/
def _hasCollection (st : State) (collectionAddress : String) : Bool :=
  st.collections.any (fun a => a == collectionAddress)

/-- `_getNFTOwner`: the external `ownerOf` read call. -/
def _getNFTOwner (env : Env) (address : String) (tokenID : Nat) : String :=
  env.ownerOf address tokenID

end Market

namespace PUM

open Market

/-- Genesis timestamp constant of the v2.2 marketplace. -/
def genesisTimestamp : Nat := 1705312800000

/-- Period duration constant. -/
def t0 : Nat := 16000

/-- Threads per period. -/
def thread_count : Nat := 32

/-- `calculateMarketplaceFee`: the source divides the amount by 100 first
and then multiplies by the stored fee rate, in `u64` arithmetic. -/
def calculateMarketplaceFee (st : State) (amount : Nat) : Nat :=
  u64mul (amount / 100) st.marketplaceFee

/-- `resetBids` (bids.ts): enumerate every bid entry whose key starts with
`bid_<c>_<tokenId>`, refund each one whose bidder differs from `tokenBuyer`
(an empty `tokenBuyer` refunds everyone), and delete every enumerated
entry.  Returns the remaining bid store and the refund transfers. -/
def resetBids (bids : List (String × Bid)) (collectionAddress : String)
    (tokenID : Nat) (tokenBuyer : String) :
    List (String × Bid) × List (String × Nat) :=
  let p := _bidKeyHead collectionAddress tokenID
  let enumerated := bids.filter (fun kv => strStarts kv.1 p)
  let refunds :=
    (enumerated.filter
        (fun kv => tokenBuyer == "" || !(kv.2.bidder == tokenBuyer))).map
      (fun kv => (kv.2.bidder, kv.2.amount))
  (bids.filter (fun kv => !(strStarts kv.1 p)), refunds)

/-- `sellOffer` (v2.2). -/
def sellOffer (env : Env) (st : State) (collectionAddress : String)
    (nftTokenId : Nat) (price : Nat) (expireIn : Nat) :
    Except String CallResult :=
  let expirationTime := u64add env.timestamp expireIn
  let creatorAddress := env.caller
  let createdTime := env.timestamp
  if env.isAddressEoa creatorAddress = false then
    .error ("Smart contract address is not support.")
  else if expirationTime ≤ env.timestamp then
    .error ("The end time must be greater than the Context.timestamp()")
  else if _hasCollection st collectionAddress = false then
    .error ("Collection or Item not found in marketplace")
  else
  let key := _keyGenerator collectionAddress nftTokenId
  if storeHas st.offers key then .error ("Sell offer already exist")
  else
  let owner := _getNFTOwner env collectionAddress nftTokenId
  if owner ≠ creatorAddress then
    .error ("You are not the owner of NFT owner:" ++ owner ++
      " callerAddress: " ++ creatorAddress)
  else if env.isApprovedForAll collectionAddress creatorAddress env.callee
      = false then
    .error ("Marketplace not approved for trading")
  else
  let newSellOffer : SellOffer :=
    ⟨collectionAddress, toString nftTokenId, price, creatorAddress,
      expirationTime, createdTime⟩
  let startPeriod := u64sub expirationTime genesisTimestamp / t0
  let startThread :=
    (u64sub expirationTime genesisTimestamp - startPeriod * t0) /
      (t0 / thread_count)
  let msg : AscMessage :=
    ⟨"autonomousDeleteOffer", startPeriod, startThread,
      u64add startPeriod 10, 31, collectionAddress, nftTokenId⟩
  .ok ⟨{ st with offers := storeSet st.offers key newSellOffer }, [], [msg]⟩

/-- `removeSellOffer` (v2.2): collection and offer must exist and the caller
must be the token's current owner; resets (refunds) all bids of the token
and deletes the offer.  This revision has no creator check. -/
def removeSellOffer (env : Env) (st : State) (collectionAddress : String)
    (nftTokenId : Nat) : Except String CallResult :=
  if _hasCollection st collectionAddress = false then
    .error ("Collection not found in marketplace")
  else
  let key := _keyGenerator collectionAddress nftTokenId
  if storeHas st.offers key = false then .error ("Sell offer doesnt exist")
  else
  let owner := _getNFTOwner env collectionAddress nftTokenId
  if owner ≠ env.caller then .error ("You are not the owner of NFT")
  else
  let rb := resetBids st.bids collectionAddress nftTokenId ""
  .ok ⟨{ st with offers := storeDel st.offers key, bids := rb.1 }, rb.2, []⟩

/-- `buyOffer` (v2.2).  The `Storage.has` guard and the decode of the stored
record (which always deserialises in this typed model) are merged into one
lookup. -/
def buyOffer (env : Env) (st : State) (collectionAddress : String)
    (nftTokenId : Nat) : Except String CallResult :=
  if _hasCollection st collectionAddress = false then
    .error ("Collection not found in marketplace")
  else
  let key := _keyGenerator collectionAddress nftTokenId
  match storeGet? st.offers key with
  | none => .error ("Sell offer doesnt exist")
  | some sellOfferData =>
    if sellOfferData.expirationTime < env.timestamp then
      .error ("Sell offer has expired")
    else if env.transferredCoins < sellOfferData.price then
      .error ("Could not send enough coins to buy this NFT")
    else
    let owner := _getNFTOwner env collectionAddress nftTokenId
    if env.isAddressEoa env.caller = false then
      .error ("Smart contract cant buy.")
    else
    let feeAmount := calculateMarketplaceFee st sellOfferData.price
    let remainingCoins := u64sub sellOfferData.price feeAmount
    let rb := resetBids st.bids collectionAddress nftTokenId ""
    .ok ⟨{ st with offers := storeDel st.offers key, bids := rb.1 },
      (st.marketplaceOwner, feeAmount) :: (owner, remainingCoins) :: rb.2,
      []⟩

/-- `autonomousDeleteOffer` (v2.2): only the contract calling itself may
run it; deletes the sell offer, deliberately leaving bids untouched. -/
def autonomousDeleteOffer (env : Env) (st : State)
    (collectionAddress : String) (tokenID : Nat) :
    Except String CallResult :=
  if env.caller ≠ env.callee then .error ("You are not root SC.")
  else
  let key := _keyGenerator collectionAddress tokenID
  if storeHas st.offers key = false then .error ("sell offer not found")
  else .ok ⟨{ st with offers := storeDel st.offers key }, [], []⟩

/-- `placeBid` (bids.ts): requires a registered collection and an existing
sell offer; refunds the caller's previous bid at the same key, if any, and
stores the new bid taken from the attached coins. -/
def placeBid (env : Env) (st : State) (collectionAddress : String)
    (nftTokenId : Nat) : Except String CallResult :=
  let bidAmount := env.transferredCoins
  if _hasCollection st collectionAddress = false then
    .error ("Collection not found in marketplace")
  else
  let key := _keyGenerator collectionAddress nftTokenId
  if storeHas st.offers key = false then
    .error ("Sell offer doesn\x27t exist")
  else
  let bidder := env.caller
  let bidKey := _bidKeyGenerator collectionAddress nftTokenId bidder
  let refunds :=
    match storeGet? st.bids bidKey with
    | some bidData => [(bidData.bidder, bidData.amount)]
    | none => []
  let bid : Bid := ⟨bidder, bidAmount, env.timestamp⟩
  .ok ⟨{ st with bids := storeSet st.bids bidKey bid }, refunds, []⟩

/-- `acceptBid` (bids.ts): looks up the named bidder's bid, requires the
caller to be the token's current owner, transfers the token externally,
forwards the bid amount minus the marketplace fee to the owner, deletes the
accepted bid, resets the remaining bids naming the bidder as winner, and
deletes the sell-offer key.  No sell-offer existence or expiry check is
performed. -/
def acceptBid (env : Env) (st : State) (collectionAddress : String)
    (nftTokenId : Nat) (bidder : String) : Except String CallResult :=
  let bidKey := _bidKeyGenerator collectionAddress nftTokenId bidder
  let sellOfferKey := _keyGenerator collectionAddress nftTokenId
  match storeGet? st.bids bidKey with
  | none => .error ("Bid not found")
  | some bidData =>
    let owner := _getNFTOwner env collectionAddress nftTokenId
    if owner ≠ env.caller then
      .error ("You are not the owner of the NFT")
    else
    let feeAmount := calculateMarketplaceFee st bidData.amount
    let remainingAmount := u64sub bidData.amount feeAmount
    let rb := resetBids (storeDel st.bids bidKey) collectionAddress
      nftTokenId bidder
    .ok ⟨{ st with bids := rb.1, offers := storeDel st.offers sellOfferKey },
      (owner, remainingAmount) :: rb.2, []⟩

end PUM

namespace MKT

open Market

/-- Genesis timestamp constant of the earlier marketplace (buildnet). -/
def genesisTimestamp : Nat := 1704289800000

/-- Period duration constant. -/
def t0 : Nat := 16000

/-- Threads per period. -/
def thread_count : Nat := 32

/-- `sellOffer` (earlier marketplace.ts revision): no EOA check and no
expiry-in-the-future check. -/
def sellOffer (env : Env) (st : State) (collectionAddress : String)
    (nftTokenId : Nat) (price : Nat) (expireIn : Nat) :
    Except String CallResult :=
  let expirationTime := u64add env.timestamp expireIn
  let creatorAddress := env.caller
  let createdTime := env.timestamp
  if _hasCollection st collectionAddress = false then
    .error ("Collection or Item not found in marketplace")
  else
  let key := _keyGenerator collectionAddress nftTokenId
  if storeHas st.offers key then .error ("Sell offer already exist")
  else
  let owner := _getNFTOwner env collectionAddress nftTokenId
  if owner ≠ creatorAddress then
    .error ("You are not the owner of NFT owner:" ++ owner ++
      " callerAddress: " ++ creatorAddress)
  else if env.isApprovedForAll collectionAddress creatorAddress env.callee
      = false then
    .error ("Marketplace not approved for trading")
  else
  let newSellOffer : SellOffer :=
    ⟨collectionAddress, toString nftTokenId, price, creatorAddress,
      expirationTime, createdTime⟩
  let startPeriod := u64sub expirationTime genesisTimestamp / t0
  let startThread :=
    (u64sub expirationTime genesisTimestamp - startPeriod * t0) /
      (t0 / thread_count)
  let msg : AscMessage :=
    ⟨"autonomousDeleteOffer", startPeriod, startThread,
      u64add startPeriod 10, 31, collectionAddress, nftTokenId⟩
  .ok ⟨{ st with offers := storeSet st.offers key newSellOffer }, [], [msg]⟩

/-- `removeSellOffer` (earlier revision): the caller must be both the stored
offer's creator and the token's current owner. -/
def removeSellOffer (env : Env) (st : State) (collectionAddress : String)
    (nftTokenId : Nat) : Except String CallResult :=
  if _hasCollection st collectionAddress = false then
    .error ("Collection not found in marketplace")
  else
  let key := _keyGenerator collectionAddress nftTokenId
  match storeGet? st.offers key with
  | none => .error ("Sell offer doesnt exist")
  | some sellOfferData =>
    if sellOfferData.creatorAddress ≠ env.caller then
      .error ("Only the creator can remove the sell offer")
    else
    let owner := _getNFTOwner env collectionAddress nftTokenId
    if owner ≠ env.caller then .error ("You are not the owner of NFT")
    else .ok ⟨{ st with offers := storeDel st.offers key }, [], []⟩

/-- `buyOffer` (earlier revision): the fee share is computed with the same
divide-first formula and simply retained by the contract (only the seller
transfer is emitted). -/
def buyOffer (env : Env) (st : State) (collectionAddress : String)
    (nftTokenId : Nat) : Except String CallResult :=
  if _hasCollection st collectionAddress = false then
    .error ("Collection not found in marketplace")
  else
  let key := _keyGenerator collectionAddress nftTokenId
  match storeGet? st.offers key with
  | none => .error ("Sell offer doesnt exist")
  | some sellOfferData =>
    if sellOfferData.expirationTime < env.timestamp then
      .error ("Sell offer has expired")
    else if env.transferredCoins < sellOfferData.price then
      .error ("Could not send enough money or marketplace fees to buy this NFT")
    else
    let owner := _getNFTOwner env collectionAddress nftTokenId
    let pricePercentage := u64mul (sellOfferData.price / 100) st.marketplaceFee
    let remainingCoins := u64sub sellOfferData.price pricePercentage
    .ok ⟨{ st with offers := storeDel st.offers key },
      [(owner, remainingCoins)], []⟩

end MKT

namespace Market

theorem U64LIM_pos : 0 < U64LIM := by norm_num [U64LIM]

theorem u64add_lt (a b : Nat) : u64add a b < U64LIM :=
  Nat.mod_lt _ U64LIM_pos

theorem u64add_eq_of_lt (a b : Nat) (h : a + b < U64LIM) :
    u64add a b = a + b :=
  Nat.mod_eq_of_lt h

theorem u64mul_eq_of_lt (a b : Nat) (h : a * b < U64LIM) :
    u64mul a b = a * b :=
  Nat.mod_eq_of_lt h

theorem u64sub_eq_of_le (a b : Nat) (hb : b ≤ a) (ha : a < U64LIM) :
    u64sub a b = a - b := by
  have hbl : b < U64LIM := lt_of_le_of_lt hb ha
  unfold u64sub
  rw [Nat.mod_eq_of_lt hbl]
  have h1 : a + U64LIM - b = (a - b) + U64LIM := by omega
  rw [h1, Nat.add_mod_right]
  exact Nat.mod_eq_of_lt (by omega)

/-- The divide-first fee share never exceeds the amount when the rate is at
most 100. -/
theorem divFee_le (P F : Nat) (hF : F ≤ 100) : P / 100 * F ≤ P :=
  calc P / 100 * F ≤ P / 100 * 100 := Nat.mul_le_mul_left _ hF
  _ ≤ P := Nat.div_mul_le_self _ _

theorem strData_append (s t : String) : (s ++ t).data = s.data ++ t.data := by
  cases s; cases t; rfl

theorem listStarts_append (l r : List Char) : listStarts l (l ++ r) = true := by
  induction l with
  | nil => rfl
  | cons a as ih => simp [listStarts, ih]

theorem strStarts_append (p s : String) : strStarts (p ++ s) p = true := by
  unfold strStarts
  rw [strData_append]
  exact listStarts_append _ _

theorem strStarts_bidKey (c : String) (t : Nat) (b : String) :
    strStarts (_bidKeyGenerator c t b) (_bidKeyHead c t) = true := by
  unfold _bidKeyGenerator strStarts
  rw [strData_append, strData_append, List.append_assoc]
  exact listStarts_append _ _

theorem strAppend_right_inj (s a b : String) (h : s ++ a = s ++ b) : a = b := by
  have h2 := congrArg String.data h
  rw [strData_append, strData_append] at h2
  have h3 := List.append_cancel_left h2
  cases a; cases b; cases h3; rfl

theorem bidKey_inj (c : String) (t : Nat) (b b' : String)
    (h : _bidKeyGenerator c t b = _bidKeyGenerator c t b') : b = b' := by
  unfold _bidKeyGenerator at h
  exact strAppend_right_inj _ _ _ h

theorem storeGet?_storeSet_self {α : Type} (l : List (String × α))
    (k : String) (v : α) : storeGet? (storeSet l k v) k = some v := by
  simp [storeGet?, storeSet, List.find?]

theorem storeGet?_storeDel_self {α : Type} (l : List (String × α))
    (k : String) : storeGet? (storeDel l k) k = none := by
  unfold storeGet? storeDel
  rw [List.find?_eq_none.mpr]
  · rfl
  · intro x hx
    have hmem := List.mem_filter.mp hx
    simpa using hmem.2

theorem storeGet?_storeDel_ne {α : Type} (l : List (String × α))
    (k k' : String) (h : k' ≠ k) :
    storeGet? (storeDel l k) k' = storeGet? l k' := by
  induction l with
  | nil => rfl
  | cons a as ih =>
    by_cases ha : a.1 = k
    · have h1 : storeDel (a :: as) k = storeDel as k := by
        simp [storeDel, List.filter_cons, ha]
      have h2 : storeGet? (a :: as) k' = storeGet? as k' := by
        unfold storeGet?
        rw [List.find?_cons_of_neg]
        simp only [ha, beq_iff_eq]
        exact fun hk => h hk.symm
      rw [h1, h2]; exact ih
    · have h1 : storeDel (a :: as) k = a :: storeDel as k := by
        simp [storeDel, List.filter_cons, ha]
      rw [h1]
      unfold storeGet?
      by_cases ha' : a.1 = k'
      · rw [List.find?_cons_of_pos _ (by simp [ha']),
          List.find?_cons_of_pos _ (by simp [ha'])]
      · rw [List.find?_cons_of_neg _ (by simp [ha']),
          List.find?_cons_of_neg _ (by simp [ha'])]
        exact ih

end Market

namespace Market

theorem storeSet_filter_self {α : Type} (l : List (String × α)) (k : String)
    (v : α) :
    (storeSet l k v).filter (fun kv => kv.1 == k) = [(k, v)] := by
  unfold storeSet
  rw [List.filter_cons]
  simp only [beq_self_eq_true, if_pos]
  have h0 : (l.filter (fun kv => !(kv.1 == k))).filter
      (fun kv => kv.1 == k) = [] := by
    rw [List.filter_eq_nil_iff]
    intro x hx
    have h2 := (List.mem_filter.mp hx).2
    simp at h2
    simp [h2]
  rw [List.filter_filter] at h0 ⊢
  rw [h0]

theorem storeSet_filter_ne_le {α : Type} (l : List (String × α))
    (k k' : String) (v : α) (hne : k' ≠ k) :
    ((storeSet l k v).filter (fun kv => kv.1 == k')).length
      ≤ (l.filter (fun kv => kv.1 == k')).length := by
  unfold storeSet
  rw [List.filter_cons]
  have h0 : (((k, v) : String × α).1 == k') = false := by
    simp
    exact fun hk => hne hk.symm
  rw [h0]
  simp only [Bool.false_eq_true, if_false]
  exact List.Sublist.length_le (List.Sublist.filter _ (List.filter_sublist l))

end Market

open Market

/-- C4: for every (collection, tokenId) at most one sell offer exists:
calling `sellOffer` (in either marketplace revision) while an offer for the
pair is already stored always aborts — whichever assert fires first, no
execution path reaches the success branch, so no state change persists. -/
theorem C4_unique_sell_offer (env : Env) (st : State) (c : String)
    (t p e : Nat) (hex : storeHas st.offers (_keyGenerator c t) = true) :
    isOk (PUM.sellOffer env st c t p e) = false
      ∧ isOk (MKT.sellOffer env st c t p e) = false := by
  constructor
  · simp only [PUM.sellOffer, hex]
    repeat' split
    all_goals try rfl
    all_goals simp_all
  · simp only [MKT.sellOffer, hex]
    repeat' split
    all_goals try rfl
    all_goals simp_all

/-- C4 witness: with a concrete state already holding an offer for
("X", 7), both `sellOffer` variants abort. -/
def stC4 : State :=
  { marketplaceFee := 5, marketplaceOwner := "mkOwner",
    collections := ["X"],
    offers := [(_keyGenerator "X" 7, ⟨"X", "7", 100, "alice", 2000, 500⟩)],
    bids := [] }

/-- Concrete benign execution context (owner "alice", everything allowed). -/
def envW : Env :=
  { caller := "alice", callee := "mkt", timestamp := 1000,
    transferredCoins := 150,
    ownerOf := fun _ _ => "alice",
    isApprovedForAll := fun _ _ _ => true,
    isAddressEoa := fun _ => true }

theorem C4_unique_sell_offer_witness :
    isOk (PUM.sellOffer envW stC4 "X" 7 100 5000) = false
      ∧ isOk (MKT.sellOffer envW stC4 "X" 7 100 5000) = false :=
  C4_unique_sell_offer envW stC4 "X" 7 100 5000 (by decide)

/-- C10: in the newest marketplace a caller that is not an
externally-owned account can never complete `sellOffer` or `buyOffer`:
every execution path aborts (the EOA assert, or an earlier assert, fires),
so no state change persists, regardless of ownership, approval or
payment. -/
theorem C10_eoa_only (env : Env) (st : State) (c : String) (t p e : Nat)
    (h : env.isAddressEoa env.caller = false) :
    isOk (PUM.sellOffer env st c t p e) = false
      ∧ isOk (PUM.buyOffer env st c t) = false := by
  constructor
  · simp only [PUM.sellOffer, h]
    repeat' split
    all_goals try rfl
    all_goals simp_all
  · simp only [PUM.buyOffer, h]
    repeat' split
    all_goals try rfl
    all_goals simp_all

/-- Execution context whose caller is a smart contract (not an EOA) that
otherwise satisfies every check. -/
def envC10 : Env :=
  { caller := "scWallet", callee := "mkt", timestamp := 1000,
    transferredCoins := 150,
    ownerOf := fun _ _ => "scWallet",
    isApprovedForAll := fun _ _ _ => true,
    isAddressEoa := fun _ => false }

theorem C10_eoa_only_witness :
    isOk (PUM.sellOffer envC10 stC4 "X" 8 100 5000) = false
      ∧ isOk (PUM.buyOffer envC10 stC4 "X" 7) = false :=
  C10_eoa_only envC10 stC4 "X" 8 100 5000 (by decide)

/-- C8: a successful `autonomousDeleteOffer` call removes exactly the
sell-offer record of the given (collection, tokenId): the bid store,
collection registry and configuration are untouched, no coin transfer is
emitted (no bid refund), the offer key is gone, and every other offer key
is unchanged. -/
theorem C8_autonomous_delete_frame (env : Env) (st : State) (c : String)
    (t : Nat) (r : CallResult)
    (h : PUM.autonomousDeleteOffer env st c t = .ok r) :
    r.state.bids = st.bids ∧ r.transfers = [] ∧ r.messages = []
      ∧ r.state.collections = st.collections
      ∧ r.state.marketplaceFee = st.marketplaceFee
      ∧ r.state.marketplaceOwner = st.marketplaceOwner
      ∧ storeGet? r.state.offers (_keyGenerator c t) = none
      ∧ ∀ k, k ≠ _keyGenerator c t →
          storeGet? r.state.offers k = storeGet? st.offers k := by
  simp only [PUM.autonomousDeleteOffer] at h
  split at h
  · exact absurd h (by simp)
  split at h
  · exact absurd h (by simp)
  injection h with h2
  subst h2
  refine ⟨rfl, rfl, rfl, rfl, rfl, rfl, storeGet?_storeDel_self _ _, ?_⟩
  intro k hk
  exact storeGet?_storeDel_ne _ _ _ hk

/-- State with one stored offer and one stored bid for ("X", 7), used to
witness the autonomous-deletion frame condition. -/
def stC8 : State :=
  { marketplaceFee := 5, marketplaceOwner := "mkOwner",
    collections := ["X"],
    offers := [(_keyGenerator "X" 7, ⟨"X", "7", 100, "alice", 2000, 500⟩)],
    bids := [(_bidKeyGenerator "X" 7 "bob", ⟨"bob", 40, 600⟩)] }

/-- Execution context of the scheduled self-call (caller = callee). -/
def envC8 : Env :=
  { caller := "mkt", callee := "mkt", timestamp := 9000,
    transferredCoins := 0,
    ownerOf := fun _ _ => "alice",
    isApprovedForAll := fun _ _ _ => true,
    isAddressEoa := fun _ => true }

/-- The result of the witness run of `autonomousDeleteOffer`. -/
def rC8 : CallResult :=
  ⟨{ marketplaceFee := 5, marketplaceOwner := "mkOwner",
     collections := ["X"], offers := [],
     bids := [(_bidKeyGenerator "X" 7 "bob", ⟨"bob", 40, 600⟩)] }, [], []⟩

theorem C8_autonomous_delete_frame_witness :
    PUM.autonomousDeleteOffer envC8 stC8 "X" 7 = .ok rC8
      ∧ (rC8.state.bids = stC8.bids ∧ rC8.transfers = [] ∧ rC8.messages = []
        ∧ rC8.state.collections = stC8.collections
        ∧ rC8.state.marketplaceFee = stC8.marketplaceFee
        ∧ rC8.state.marketplaceOwner = stC8.marketplaceOwner
        ∧ storeGet? rC8.state.offers (_keyGenerator "X" 7) = none
        ∧ ∀ k, k ≠ _keyGenerator "X" 7 →
            storeGet? rC8.state.offers k = storeGet? stC8.offers k) :=
  ⟨rfl, C8_autonomous_delete_frame envC8 stC8 "X" 7 rC8 rfl⟩

/-- C9: `acceptBid` performs no sell-offer existence or expiry check: for
any state holding a bid for (collection, tokenId, bidder) whose caller is
the token's current owner, the call succeeds, settles at the bid amount
(minus the marketplace fee) and deletes the offer key unconditionally —
the hypotheses say nothing about the offer store, so this covers states
with no stored offer and states whose stored offer is expired. -/
theorem C9_accept_bid_no_offer_check (env : Env) (st : State) (c : String)
    (t : Nat) (b : String) (bid : Bid)
    (hbid : storeGet? st.bids (_bidKeyGenerator c t b) = some bid)
    (hown : _getNFTOwner env c t = env.caller) :
    ∃ r, PUM.acceptBid env st c t b = .ok r
      ∧ r.state.offers = storeDel st.offers (_keyGenerator c t)
      ∧ r.transfers.head? = some (env.caller,
          u64sub bid.amount (PUM.calculateMarketplaceFee st bid.amount)) := by
  simp only [PUM.acceptBid, hbid, hown, ne_eq, not_true_eq_false, if_false]
  exact ⟨_, rfl, rfl, rfl⟩

/-- State holding a bid for ("X", 7, "bob") and no sell offer at all. -/
def stC9 : State :=
  { marketplaceFee := 5, marketplaceOwner := "mkOwner",
    collections := ["X"], offers := [],
    bids := [(_bidKeyGenerator "X" 7 "bob", ⟨"bob", 200, 600⟩)] }

/-- Execution context of the token owner accepting the bid. -/
def envC9 : Env :=
  { caller := "alice", callee := "mkt", timestamp := 99999,
    transferredCoins := 0,
    ownerOf := fun _ _ => "alice",
    isApprovedForAll := fun _ _ _ => true,
    isAddressEoa := fun _ => true }

theorem C9_accept_bid_no_offer_check_witness :
    stC9.offers = []
      ∧ ∃ r, PUM.acceptBid envC9 stC9 "X" 7 "bob" = .ok r
        ∧ r.state.offers = storeDel stC9.offers (_keyGenerator "X" 7)
        ∧ r.transfers.head? = some (envC9.caller,
            u64sub (Bid.amount ⟨"bob", 200, 600⟩)
              (PUM.calculateMarketplaceFee stC9 (Bid.amount ⟨"bob", 200, 600⟩))) :=
  ⟨rfl, C9_accept_bid_no_offer_check envC9 stC9 "X" 7 "bob" ⟨"bob", 200, 600⟩
    rfl rfl⟩

/-- Inversion of a successful v2.2 `sellOffer`: the stored offer and the
single scheduled message, field by field. -/
theorem PUM_sellOffer_ok_inv (env : Env) (st : State) (c : String)
    (t p e : Nat) (r : CallResult)
    (h : PUM.sellOffer env st c t p e = .ok r) :
    r.messages = [⟨"autonomousDeleteOffer",
        u64sub (u64add env.timestamp e) PUM.genesisTimestamp / PUM.t0,
        (u64sub (u64add env.timestamp e) PUM.genesisTimestamp
            - u64sub (u64add env.timestamp e) PUM.genesisTimestamp / PUM.t0
              * PUM.t0) / (PUM.t0 / PUM.thread_count),
        u64add (u64sub (u64add env.timestamp e) PUM.genesisTimestamp
            / PUM.t0) 10,
        31, c, t⟩]
      ∧ storeGet? r.state.offers (_keyGenerator c t)
          = some ⟨c, toString t, p, env.caller, u64add env.timestamp e,
              env.timestamp⟩ := by
  simp only [PUM.sellOffer] at h
  split at h
  · exact absurd h (by simp)
  split at h
  · exact absurd h (by simp)
  split at h
  · exact absurd h (by simp)
  split at h
  · exact absurd h (by simp)
  split at h
  · exact absurd h (by simp)
  split at h
  · exact absurd h (by simp)
  injection h with h2
  subst h2
  exact ⟨rfl, storeGet?_storeSet_self _ _ _⟩

/-- Inversion of a successful `sellOffer` of the earlier revision. -/
theorem MKT_sellOffer_ok_inv (env : Env) (st : State) (c : String)
    (t p e : Nat) (r : CallResult)
    (h : MKT.sellOffer env st c t p e = .ok r) :
    r.messages = [⟨"autonomousDeleteOffer",
        u64sub (u64add env.timestamp e) MKT.genesisTimestamp / MKT.t0,
        (u64sub (u64add env.timestamp e) MKT.genesisTimestamp
            - u64sub (u64add env.timestamp e) MKT.genesisTimestamp / MKT.t0
              * MKT.t0) / (MKT.t0 / MKT.thread_count),
        u64add (u64sub (u64add env.timestamp e) MKT.genesisTimestamp
            / MKT.t0) 10,
        31, c, t⟩]
      ∧ storeGet? r.state.offers (_keyGenerator c t)
          = some ⟨c, toString t, p, env.caller, u64add env.timestamp e,
              env.timestamp⟩ := by
  simp only [MKT.sellOffer] at h
  split at h
  · exact absurd h (by simp)
  split at h
  · exact absurd h (by simp)
  split at h
  · exact absurd h (by simp)
  split at h
  · exact absurd h (by simp)
  injection h with h2
  subst h2
  exact ⟨rfl, storeGet?_storeSet_self _ _ _⟩

/-- C7: on successful offer creation (either revision) the deferred
self-call's coordinate is exactly `period = floor((expireAt - genesis)/t0)`
and `thread = floor(((expireAt - genesis) - period*t0)/(t0/threadCount))`,
with execution window `period..period+10` ending at thread 31, where
`expireAt` is the stored offer's expiration time and the expiry is at or
after genesis (the pre-genesis case underflows in the source and is the
spec's acknowledged open defect). -/
theorem C7_expiry_schedule (env : Env) (st : State) (c : String)
    (t p e : Nat) :
    (∀ r so, PUM.sellOffer env st c t p e = .ok r →
      storeGet? r.state.offers (_keyGenerator c t) = some so →
      PUM.genesisTimestamp ≤ so.expirationTime →
      ∃ msg, r.messages = [msg]
        ∧ msg.func = "autonomousDeleteOffer"
        ∧ msg.startPeriod
            = (so.expirationTime - PUM.genesisTimestamp) / PUM.t0
        ∧ msg.startThread
            = ((so.expirationTime - PUM.genesisTimestamp)
                - (so.expirationTime - PUM.genesisTimestamp) / PUM.t0
                  * PUM.t0) / (PUM.t0 / PUM.thread_count)
        ∧ msg.endPeriod
            = (so.expirationTime - PUM.genesisTimestamp) / PUM.t0 + 10
        ∧ msg.endThread = 31)
    ∧ (∀ r so, MKT.sellOffer env st c t p e = .ok r →
      storeGet? r.state.offers (_keyGenerator c t) = some so →
      MKT.genesisTimestamp ≤ so.expirationTime →
      ∃ msg, r.messages = [msg]
        ∧ msg.func = "autonomousDeleteOffer"
        ∧ msg.startPeriod
            = (so.expirationTime - MKT.genesisTimestamp) / MKT.t0
        ∧ msg.startThread
            = ((so.expirationTime - MKT.genesisTimestamp)
                - (so.expirationTime - MKT.genesisTimestamp) / MKT.t0
                  * MKT.t0) / (MKT.t0 / MKT.thread_count)
        ∧ msg.endPeriod
            = (so.expirationTime - MKT.genesisTimestamp) / MKT.t0 + 10
        ∧ msg.endThread = 31) := by
  constructor
  · intro r so hok hget hgen
    obtain ⟨hmsg, hoff⟩ := PUM_sellOffer_ok_inv env st c t p e r hok
    rw [hoff] at hget
    injection hget with h3
    subst h3
    have hsub : u64sub (u64add env.timestamp e) PUM.genesisTimestamp
        = u64add env.timestamp e - PUM.genesisTimestamp :=
      u64sub_eq_of_le _ _ hgen (u64add_lt _ _)
    have h1 : u64add env.timestamp e - PUM.genesisTimestamp ≤ U64LIM - 1 := by
      have := u64add_lt env.timestamp e
      omega
    have h2 : (u64add env.timestamp e - PUM.genesisTimestamp) / PUM.t0
        ≤ (U64LIM - 1) / PUM.t0 := Nat.div_le_div_right h1
    have h3 : (U64LIM - 1) / PUM.t0 + 10 < U64LIM := by decide
    refine ⟨_, hmsg, rfl, ?_, ?_, ?_, rfl⟩
    · show u64sub (u64add env.timestamp e) PUM.genesisTimestamp / PUM.t0
        = (u64add env.timestamp e - PUM.genesisTimestamp) / PUM.t0
      rw [hsub]
    · show (u64sub (u64add env.timestamp e) PUM.genesisTimestamp
          - u64sub (u64add env.timestamp e) PUM.genesisTimestamp / PUM.t0
            * PUM.t0) / (PUM.t0 / PUM.thread_count)
        = ((u64add env.timestamp e - PUM.genesisTimestamp)
            - (u64add env.timestamp e - PUM.genesisTimestamp) / PUM.t0
              * PUM.t0) / (PUM.t0 / PUM.thread_count)
      rw [hsub]
    · show u64add (u64sub (u64add env.timestamp e) PUM.genesisTimestamp
          / PUM.t0) 10
        = (u64add env.timestamp e - PUM.genesisTimestamp) / PUM.t0 + 10
      rw [hsub]
      exact u64add_eq_of_lt _ _ (by omega)
  · intro r so hok hget hgen
    obtain ⟨hmsg, hoff⟩ := MKT_sellOffer_ok_inv env st c t p e r hok
    rw [hoff] at hget
    injection hget with h3
    subst h3
    have hsub : u64sub (u64add env.timestamp e) MKT.genesisTimestamp
        = u64add env.timestamp e - MKT.genesisTimestamp :=
      u64sub_eq_of_le _ _ hgen (u64add_lt _ _)
    have h1 : u64add env.timestamp e - MKT.genesisTimestamp ≤ U64LIM - 1 := by
      have := u64add_lt env.timestamp e
      omega
    have h2 : (u64add env.timestamp e - MKT.genesisTimestamp) / MKT.t0
        ≤ (U64LIM - 1) / MKT.t0 := Nat.div_le_div_right h1
    have h3 : (U64LIM - 1) / MKT.t0 + 10 < U64LIM := by decide
    refine ⟨_, hmsg, rfl, ?_, ?_, ?_, rfl⟩
    · show u64sub (u64add env.timestamp e) MKT.genesisTimestamp / MKT.t0
        = (u64add env.timestamp e - MKT.genesisTimestamp) / MKT.t0
      rw [hsub]
    · show (u64sub (u64add env.timestamp e) MKT.genesisTimestamp
          - u64sub (u64add env.timestamp e) MKT.genesisTimestamp / MKT.t0
            * MKT.t0) / (MKT.t0 / MKT.thread_count)
        = ((u64add env.timestamp e - MKT.genesisTimestamp)
            - (u64add env.timestamp e - MKT.genesisTimestamp) / MKT.t0
              * MKT.t0) / (MKT.t0 / MKT.thread_count)
      rw [hsub]
    · show u64add (u64sub (u64add env.timestamp e) MKT.genesisTimestamp
          / MKT.t0) 10
        = (u64add env.timestamp e - MKT.genesisTimestamp) / MKT.t0 + 10
      rw [hsub]
      exact u64add_eq_of_lt _ _ (by omega)

/-- State with the registered collection "X" and no offers, for the
scheduling witness. -/
def stC7 : State :=
  { marketplaceFee := 5, marketplaceOwner := "mkOwner",
    collections := ["X"], offers := [], bids := [] }

/-- Seller context at the genesis timestamp. -/
def envC7 : Env :=
  { caller := "alice", callee := "mkt", timestamp := 1705312800000,
    transferredCoins := 0,
    ownerOf := fun _ _ => "alice",
    isApprovedForAll := fun _ _ _ => true,
    isAddressEoa := fun _ => true }

/-- The offer stored by the witness run of `sellOffer`. -/
def soC7 : SellOffer :=
  ⟨"X", "7", 100, "alice", 1705312880700, 1705312800000⟩

/-- The result of the witness run of `sellOffer`: period 5, thread 1,
window up to period 15, thread 31. -/
def rC7 : CallResult :=
  ⟨{ marketplaceFee := 5, marketplaceOwner := "mkOwner",
     collections := ["X"], offers := [(_keyGenerator "X" 7, soC7)],
     bids := [] }, [],
   [⟨"autonomousDeleteOffer", 5, 1, 15, 31, "X", 7⟩]⟩

theorem C7_expiry_schedule_witness :
    PUM.sellOffer envC7 stC7 "X" 7 100 80700 = .ok rC7
      ∧ storeGet? rC7.state.offers (_keyGenerator "X" 7) = some soC7
      ∧ PUM.genesisTimestamp ≤ soC7.expirationTime
      ∧ (∃ msg, rC7.messages = [msg]
          ∧ msg.func = "autonomousDeleteOffer"
          ∧ msg.startPeriod
              = (soC7.expirationTime - PUM.genesisTimestamp) / PUM.t0
          ∧ msg.startThread
              = ((soC7.expirationTime - PUM.genesisTimestamp)
                  - (soC7.expirationTime - PUM.genesisTimestamp) / PUM.t0
                    * PUM.t0) / (PUM.t0 / PUM.thread_count)
          ∧ msg.endPeriod
              = (soC7.expirationTime - PUM.genesisTimestamp) / PUM.t0 + 10
          ∧ msg.endThread = 31) :=
  ⟨rfl, rfl, by decide,
    (C7_expiry_schedule envC7 stC7 "X" 7 100 80700).1 rC7 soC7 rfl rfl
      (by decide)⟩

/-- Buyer context paying the exact price 150. -/
def envC1 : Env :=
  { caller := "buyer1", callee := "mkt", timestamp := 1000,
    transferredCoins := 150,
    ownerOf := fun _ _ => "seller1",
    isApprovedForAll := fun _ _ _ => true,
    isAddressEoa := fun _ => true }

/-- A stored offer at price 150. -/
def offC1 : SellOffer := ⟨"X", "7", 150, "seller1", 2000, 500⟩

/-- State with fee rate 5 and the price-150 offer. -/
def stC1 : State :=
  { marketplaceFee := 5, marketplaceOwner := "mkOwner",
    collections := ["X"],
    offers := [(_keyGenerator "X" 7, offC1)], bids := [] }

/-- C1 counterexample: a settlement at price P = 150 with stored fee rate
F = 5 charges a fee of 5 (the code computes `(P / 100) * F`), whereas
`floor(P * F / 100) = 7`; so the claimed fee formula is false, even though
the conservation half (5 + 145 = 150) holds here. -/
theorem C1_fee_formula_counterexample :
    (PUM.buyOffer envC1 stC1 "X" 7).map CallResult.transfers
        = .ok [("mkOwner", 5), ("seller1", 145)]
      ∧ storeGet? stC1.offers (_keyGenerator "X" 7) = some offC1
      ∧ offC1.price = 150
      ∧ stC1.marketplaceFee = 5
      ∧ (5 : Nat) + 145 = 150
      ∧ (5 : Nat) ≠ 150 * 5 / 100 :=
  ⟨rfl, rfl, rfl, rfl, rfl, by decide⟩

/-- C1 (amended): for every settlement (direct buy or bid acceptance) at
price P with stored fee rate F ≤ 100, the fee amount equals
`floor(P / 100) * F` — the code divides by 100 before multiplying — and the
coins forwarded to the seller plus the fee amount equal P exactly (P below
2^64; without the F ≤ 100 bound the unsigned subtraction `P - fee` can
wrap). -/
theorem C1_fee_conservation_amended :
    (∀ (env : Env) (st : State) (c : String) (t : Nat) (so : SellOffer)
        (r : CallResult),
      PUM.buyOffer env st c t = .ok r →
      storeGet? st.offers (_keyGenerator c t) = some so →
      so.price < U64LIM → st.marketplaceFee ≤ 100 →
      ∃ fee, fee = so.price / 100 * st.marketplaceFee
        ∧ r.transfers.take 2
            = [(st.marketplaceOwner, fee),
               (_getNFTOwner env c t, so.price - fee)]
        ∧ fee + (so.price - fee) = so.price)
    ∧ (∀ (env : Env) (st : State) (c : String) (t : Nat) (b : String)
        (bid : Bid) (r : CallResult),
      PUM.acceptBid env st c t b = .ok r →
      storeGet? st.bids (_bidKeyGenerator c t b) = some bid →
      bid.amount < U64LIM → st.marketplaceFee ≤ 100 →
      ∃ fee, fee = bid.amount / 100 * st.marketplaceFee
        ∧ r.transfers.take 1 = [(_getNFTOwner env c t, bid.amount - fee)]
        ∧ fee + (bid.amount - fee) = bid.amount) := by
  constructor
  · intro env st c t so r hok hget hP hF
    simp only [PUM.buyOffer] at hok
    split at hok
    · exact absurd hok (by simp)
    split at hok
    · exact absurd hok (by simp)
    rename_i so2 heq
    rw [hget] at heq
    injection heq with heq2
    subst heq2
    split at hok
    · exact absurd hok (by simp)
    split at hok
    · exact absurd hok (by simp)
    split at hok
    · exact absurd hok (by simp)
    injection hok with h2
    subst h2
    have hle : so.price / 100 * st.marketplaceFee ≤ so.price :=
      divFee_le _ _ hF
    have hfee : PUM.calculateMarketplaceFee st so.price
        = so.price / 100 * st.marketplaceFee := by
      unfold PUM.calculateMarketplaceFee
      exact u64mul_eq_of_lt _ _ (lt_of_le_of_lt hle hP)
    have hrem : u64sub so.price (PUM.calculateMarketplaceFee st so.price)
        = so.price - so.price / 100 * st.marketplaceFee := by
      rw [hfee]
      exact u64sub_eq_of_le _ _ hle hP
    refine ⟨_, rfl, ?_, Nat.add_sub_cancel' hle⟩
    show List.take 2 ((st.marketplaceOwner,
        PUM.calculateMarketplaceFee st so.price)
        :: (_getNFTOwner env c t,
            u64sub so.price (PUM.calculateMarketplaceFee st so.price))
        :: (PUM.resetBids st.bids c t "").2) = _
    rw [hrem, hfee]
    rfl
  · intro env st c t b bid r hok hbid hP hF
    simp only [PUM.acceptBid] at hok
    split at hok
    · exact absurd hok (by simp)
    rename_i bid2 heq
    rw [hbid] at heq
    injection heq with heq2
    subst heq2
    split at hok
    · exact absurd hok (by simp)
    injection hok with h2
    subst h2
    have hle : bid.amount / 100 * st.marketplaceFee ≤ bid.amount :=
      divFee_le _ _ hF
    have hfee : PUM.calculateMarketplaceFee st bid.amount
        = bid.amount / 100 * st.marketplaceFee := by
      unfold PUM.calculateMarketplaceFee
      exact u64mul_eq_of_lt _ _ (lt_of_le_of_lt hle hP)
    have hrem : u64sub bid.amount (PUM.calculateMarketplaceFee st bid.amount)
        = bid.amount - bid.amount / 100 * st.marketplaceFee := by
      rw [hfee]
      exact u64sub_eq_of_le _ _ hle hP
    refine ⟨_, rfl, ?_, Nat.add_sub_cancel' hle⟩
    show List.take 1 ((_getNFTOwner env c t,
        u64sub bid.amount (PUM.calculateMarketplaceFee st bid.amount))
        :: (PUM.resetBids (storeDel st.bids
            (_bidKeyGenerator c t b)) c t b).2) = _
    rw [hrem]
    rfl

namespace Market

theorem isOk_iff (x : Except String CallResult) :
    isOk x = true ↔ ∃ r, x = .ok r := by
  cases x <;> simp [isOk]

end Market

/-- C2 (amended): in the earlier marketplace revision `removeSellOffer`
succeeds exactly when the collection is registered, the offer exists, and
the caller is both the stored offer's creator and the token's current
owner; in the newest (v2.2) revision the creator check was dropped —
success requires only that the collection and offer exist and the caller is
the current owner.  In both revisions a failed check aborts the call, so no
state change persists. -/
theorem C2_remove_offer_auth_amended (env : Env) (st : State) (c : String)
    (t : Nat) :
    (isOk (MKT.removeSellOffer env st c t) = true ↔
      (_hasCollection st c = true
        ∧ ∃ so, storeGet? st.offers (_keyGenerator c t) = some so
            ∧ so.creatorAddress = env.caller
            ∧ _getNFTOwner env c t = env.caller))
    ∧ (isOk (PUM.removeSellOffer env st c t) = true ↔
      (_hasCollection st c = true
        ∧ storeHas st.offers (_keyGenerator c t) = true
        ∧ _getNFTOwner env c t = env.caller)) := by
  constructor
  · rw [isOk_iff]
    constructor
    · rintro ⟨r, hr⟩
      simp only [MKT.removeSellOffer] at hr
      split at hr
      · exact absurd hr (by simp)
      rename_i hcol
      split at hr
      · exact absurd hr (by simp)
      rename_i so heq
      split at hr
      · exact absurd hr (by simp)
      rename_i hcr
      split at hr
      · exact absurd hr (by simp)
      rename_i hown
      exact ⟨by simpa using hcol, so, heq, by simpa using hcr,
        by simpa using hown⟩
    · rintro ⟨hcol, so, hget, hcr, hown⟩
      simp only [MKT.removeSellOffer, hcol, hget, hcr, hown]
      simp
  · rw [isOk_iff]
    constructor
    · rintro ⟨r, hr⟩
      simp only [PUM.removeSellOffer] at hr
      split at hr
      · exact absurd hr (by simp)
      rename_i hcol
      split at hr
      · exact absurd hr (by simp)
      rename_i hhas
      split at hr
      · exact absurd hr (by simp)
      rename_i hown
      exact ⟨by simpa using hcol, by simpa using hhas, by simpa using hown⟩
    · rintro ⟨hcol, hhas, hown⟩
      simp only [PUM.removeSellOffer, hcol, hhas, hown]
      simp

/-- Caller "bob", the token's current owner but not the offer's creator. -/
def envC2 : Env :=
  { caller := "bob", callee := "mkt", timestamp := 1000,
    transferredCoins := 0,
    ownerOf := fun _ _ => "bob",
    isApprovedForAll := fun _ _ _ => true,
    isAddressEoa := fun _ => true }

/-- Offer created by "alice". -/
def offC2 : SellOffer := ⟨"X", "7", 100, "alice", 2000, 500⟩

/-- State with "alice"'s offer stored for ("X", 7). -/
def stC2 : State :=
  { marketplaceFee := 5, marketplaceOwner := "mkOwner",
    collections := ["X"],
    offers := [(_keyGenerator "X" 7, offC2)], bids := [] }

/-- C2 counterexample: in the v2.2 marketplace, `removeSellOffer` called by
"bob" — the current token owner but not the stored offer's creator "alice"
— succeeds, refuting the claim that removal requires the caller to be the
creator as well. -/
theorem C2_creator_check_counterexample :
    isOk (PUM.removeSellOffer envC2 stC2 "X" 7) = true
      ∧ storeGet? stC2.offers (_keyGenerator "X" 7) = some offC2
      ∧ offC2.creatorAddress ≠ envC2.caller :=
  ⟨rfl, rfl, by decide⟩

theorem C2_remove_offer_auth_amended_witness :
    isOk (MKT.removeSellOffer envW stC4 "X" 7) = true :=
  (C2_remove_offer_auth_amended envW stC4 "X" 7).1.mpr
    ⟨by decide, ⟨"X", "7", 100, "alice", 2000, 500⟩, by decide, rfl, rfl⟩

/-- C6 (amended): a stored sell offer whose expiration time has passed can
never be bought — `buyOffer` on it always aborts in both revisions — and
whenever the collection is (still) registered the failure is precisely the
expiry error; if the collection has been deregistered while the offer was
live, the call aborts earlier with the collection-not-found error
instead. -/
theorem C6_expired_offer_amended (env : Env) (st : State) (c : String)
    (t : Nat) (so : SellOffer)
    (hget : storeGet? st.offers (_keyGenerator c t) = some so)
    (hexp : so.expirationTime < env.timestamp) :
    isOk (PUM.buyOffer env st c t) = false
      ∧ isOk (MKT.buyOffer env st c t) = false
      ∧ (_hasCollection st c = true →
          PUM.buyOffer env st c t = .error ("Sell offer has expired")
            ∧ MKT.buyOffer env st c t
              = .error ("Sell offer has expired")) := by
  refine ⟨?_, ?_, ?_⟩
  · simp only [PUM.buyOffer]
    split
    · rfl
    rw [hget]
    simp [hexp, isOk]
  · simp only [MKT.buyOffer]
    split
    · rfl
    rw [hget]
    simp [hexp, isOk]
  · intro hcol
    constructor
    · simp only [PUM.buyOffer, hcol, hget]
      simp [hexp]
    · simp only [MKT.buyOffer, hcol, hget]
      simp [hexp]

/-- An offer already expired at timestamp 100. -/
def offC6 : SellOffer := ⟨"X", "7", 100, "alice", 100, 50⟩

/-- Buyer context at timestamp 200 with ample payment. -/
def envC6 : Env :=
  { caller := "buyer1", callee := "mkt", timestamp := 200,
    transferredCoins := 1000,
    ownerOf := fun _ _ => "alice",
    isApprovedForAll := fun _ _ _ => true,
    isAddressEoa := fun _ => true }

/-- State holding the expired offer while the collection has been
deregistered. -/
def stC6 : State :=
  { marketplaceFee := 5, marketplaceOwner := "mkOwner",
    collections := [],
    offers := [(_keyGenerator "X" 7, offC6)], bids := [] }

/-- C6 counterexample: the stored offer for ("X", 7) is expired
(100 < 200), yet `buyOffer` fails with the collection-not-found error, not
the expiry error, because the collection record was deleted while the offer
stayed stored — so "always fails with an expiry error" is false (the buy
still never succeeds). -/
theorem C6_expiry_error_counterexample :
    storeGet? stC6.offers (_keyGenerator "X" 7) = some offC6
      ∧ offC6.expirationTime < envC6.timestamp
      ∧ PUM.buyOffer envC6 stC6 "X" 7
          = .error ("Collection not found in marketplace")
      ∧ ("Collection not found in marketplace" : String)
          ≠ "Sell offer has expired" :=
  ⟨rfl, by decide, rfl, by decide⟩

/-- Same expired offer with the collection still registered. -/
def stC6w : State :=
  { marketplaceFee := 5, marketplaceOwner := "mkOwner",
    collections := ["X"],
    offers := [(_keyGenerator "X" 7, offC6)], bids := [] }

theorem C6_expired_offer_amended_witness :
    offC6.expirationTime < envC6.timestamp
      ∧ (isOk (PUM.buyOffer envC6 stC6w "X" 7) = false
        ∧ isOk (MKT.buyOffer envC6 stC6w "X" 7) = false
        ∧ (_hasCollection stC6w "X" = true →
            PUM.buyOffer envC6 stC6w "X" 7
              = .error ("Sell offer has expired")
            ∧ MKT.buyOffer envC6 stC6w "X" 7
              = .error ("Sell offer has expired"))) :=
  ⟨by decide,
    C6_expired_offer_amended envC6 stC6w "X" 7 offC6 rfl (by decide)⟩

/-- The result of the witness run of `buyOffer` at price 150, fee rate 5. -/
def rC1 : CallResult :=
  ⟨{ marketplaceFee := 5, marketplaceOwner := "mkOwner",
     collections := ["X"], offers := [], bids := [] },
   [("mkOwner", 5), ("seller1", 145)], []⟩

theorem C1_fee_conservation_amended_witness :
    PUM.buyOffer envC1 stC1 "X" 7 = .ok rC1
      ∧ storeGet? stC1.offers (_keyGenerator "X" 7) = some offC1
      ∧ offC1.price < U64LIM
      ∧ stC1.marketplaceFee ≤ 100
      ∧ ∃ fee, fee = offC1.price / 100 * stC1.marketplaceFee
          ∧ rC1.transfers.take 2
              = [(stC1.marketplaceOwner, fee),
                 (_getNFTOwner envC1 "X" 7, offC1.price - fee)]
          ∧ fee + (offC1.price - fee) = offC1.price :=
  ⟨rfl, rfl, by decide, by decide,
    C1_fee_conservation_amended.1 envC1 stC1 "X" 7 offC1 rC1 rfl rfl
      (by decide) (by decide)⟩

/-- After a bid reset no bid entry keyed under the token remains. -/
theorem resetBids_get_none (bids : List (String × Bid)) (c : String)
    (t : Nat) (w b2 : String) :
    storeGet? (PUM.resetBids bids c t w).1 (_bidKeyGenerator c t b2)
      = none := by
  simp only [PUM.resetBids]
  unfold storeGet?
  have hfind : List.find? (fun kv => kv.1 == _bidKeyGenerator c t b2)
      (bids.filter
        (fun kv => !(strStarts kv.1 (_bidKeyHead c t)))) = none := by
    rw [List.find?_eq_none]
    intro x hx hpred
    have h2 := (List.mem_filter.mp hx).2
    have hx1 : x.1 = _bidKeyGenerator c t b2 := by simpa using hpred
    rw [hx1, strStarts_bidKey] at h2
    simp at h2
  rw [hfind]
  rfl

/-- A bid reset naming a (nonempty) winner never refunds the winner. -/
theorem resetBids_winner_not_refunded (bids : List (String × Bid))
    (c : String) (t : Nat) (w : String) (hw : w ≠ "") (amt : Nat) :
    (w, amt) ∉ (PUM.resetBids bids c t w).2 := by
  intro hmem
  simp only [PUM.resetBids] at hmem
  obtain ⟨kv, hkv, heq⟩ := List.mem_map.mp hmem
  have hcond := (List.mem_filter.mp hkv).2
  have hb : kv.2.bidder = w := congrArg Prod.fst heq
  rw [hb] at hcond
  simp [hw] at hcond

/-- A bid reset refunds every enumerated bid whose bidder is not the
winner. -/
theorem resetBids_other_refunded (bids : List (String × Bid)) (c : String)
    (t : Nat) (w : String) (kv : String × Bid) (hmem : kv ∈ bids)
    (hkey : strStarts kv.1 (_bidKeyHead c t) = true)
    (hne : kv.2.bidder ≠ w) :
    (kv.2.bidder, kv.2.amount) ∈ (PUM.resetBids bids c t w).2 := by
  simp only [PUM.resetBids]
  refine List.mem_map.mpr ⟨kv, ?_, rfl⟩
  refine List.mem_filter.mpr ⟨List.mem_filter.mpr ⟨hmem, hkey⟩, ?_⟩
  simp [hne]

/-- C3: after a successful `acceptBid(c, t, b)` no bid record remains for
(c, t); the accepted bidder (whose address is nonempty) receives no
coin transfer beyond the settlement itself — in particular no refund of
their own bid amount; and every other stored bidder of (c, t) is refunded
their full bid amount. -/
theorem C3_accept_bid_exclusivity (env : Env) (st : State) (c : String)
    (t : Nat) (b : String) (r : CallResult)
    (hok : PUM.acceptBid env st c t b = .ok r) (hb : b ≠ "") :
    (∀ b2, storeGet? r.state.bids (_bidKeyGenerator c t b2) = none)
      ∧ (∀ amt, (b, amt) ∉ r.transfers.tail)
      ∧ (∀ b2 bid, b2 ≠ b →
          storeGet? st.bids (_bidKeyGenerator c t b2) = some bid →
          bid.bidder = b2 → (bid.bidder, bid.amount) ∈ r.transfers) := by
  simp only [PUM.acceptBid] at hok
  split at hok
  · exact absurd hok (by simp)
  rename_i bidData heq
  split at hok
  · exact absurd hok (by simp)
  injection hok with h2
  subst h2
  refine ⟨?_, ?_, ?_⟩
  · intro b2
    exact resetBids_get_none (storeDel st.bids (_bidKeyGenerator c t b))
      c t b b2
  · intro amt
    exact resetBids_winner_not_refunded
      (storeDel st.bids (_bidKeyGenerator c t b)) c t b hb amt
  · intro b2 bid hne hget hfield
    apply List.mem_cons_of_mem
    unfold storeGet? at hget
    obtain ⟨kv, hkvfind, hkv2⟩ : ∃ kv,
        List.find? (fun kv => kv.1 == _bidKeyGenerator c t b2) st.bids
          = some kv ∧ kv.2 = bid := by
      cases hfd : List.find? (fun kv => kv.1 == _bidKeyGenerator c t b2)
          st.bids with
      | none => rw [hfd] at hget; simp at hget
      | some kv =>
        rw [hfd] at hget
        simp at hget
        exact ⟨kv, rfl, hget⟩
    have hkvmem : kv ∈ st.bids := List.mem_of_find?_eq_some hkvfind
    have hkv1 : kv.1 = _bidKeyGenerator c t b2 := by
      have := List.find?_some hkvfind
      simpa using this
    have hkne : kv.1 ≠ _bidKeyGenerator c t b := by
      rw [hkv1]
      intro hEq
      exact hne (bidKey_inj c t b2 b hEq)
    have hmem2 : kv ∈ storeDel st.bids (_bidKeyGenerator c t b) :=
      List.mem_filter.mpr ⟨hkvmem, by simp [hkne]⟩
    have hkey : strStarts kv.1 (_bidKeyHead c t) = true := by
      rw [hkv1]
      exact strStarts_bidKey c t b2
    have hbne : kv.2.bidder ≠ b := by
      rw [hkv2, hfield]
      exact hne
    have hres := resetBids_other_refunded
      (storeDel st.bids (_bidKeyGenerator c t b)) c t b kv hmem2 hkey hbne
    rw [hkv2] at hres
    exact hres

/-- Owner context accepting a bid. -/
def envC3 : Env :=
  { caller := "alice", callee := "mkt", timestamp := 1000,
    transferredCoins := 0,
    ownerOf := fun _ _ => "alice",
    isApprovedForAll := fun _ _ _ => true,
    isAddressEoa := fun _ => true }

/-- State with an offer on ("X", 7) and bids by "bob" (200) and "carol"
(180). -/
def stC3 : State :=
  { marketplaceFee := 5, marketplaceOwner := "mkOwner",
    collections := ["X"],
    offers := [(_keyGenerator "X" 7, ⟨"X", "7", 100, "alice", 2000, 500⟩)],
    bids := [(_bidKeyGenerator "X" 7 "bob", ⟨"bob", 200, 600⟩),
             (_bidKeyGenerator "X" 7 "carol", ⟨"carol", 180, 650⟩)] }

/-- The result of accepting "bob"'s bid: seller paid 190 (200 minus fee
10), "carol" refunded 180, all bids gone, offer gone. -/
def rC3 : CallResult :=
  ⟨{ marketplaceFee := 5, marketplaceOwner := "mkOwner",
     collections := ["X"], offers := [], bids := [] },
   [("alice", 190), ("carol", 180)], []⟩

theorem C3_accept_bid_exclusivity_witness :
    PUM.acceptBid envC3 stC3 "X" 7 "bob" = .ok rC3
      ∧ ("bob" : String) ≠ ""
      ∧ ((∀ b2, storeGet? rC3.state.bids (_bidKeyGenerator "X" 7 b2) = none)
        ∧ (∀ amt, ("bob", amt) ∉ rC3.transfers.tail)
        ∧ (∀ b2 bid, b2 ≠ "bob" →
            storeGet? stC3.bids (_bidKeyGenerator "X" 7 b2) = some bid →
            bid.bidder = b2 → (bid.bidder, bid.amount) ∈ rC3.transfers)) :=
  ⟨rfl, by decide,
    C3_accept_bid_exclusivity envC3 stC3 "X" 7 "bob" rC3 rfl (by decide)⟩

/-- C5: a successful `placeBid` by a caller who already holds a stored bid
on the token refunds the old bid's full amount to that bidder (the only
transfer of the call, emitted before the new record is written), stores the
new bid taken from the attached coins, leaves exactly one record under the
caller's bid key, and preserves, for every key, that the store holds at
most one record per (collection, tokenId, bidder) key. -/
theorem C5_bid_replace (env : Env) (st : State) (c : String) (t : Nat)
    (old : Bid) (r : CallResult)
    (hold : storeGet? st.bids (_bidKeyGenerator c t env.caller) = some old)
    (hfield : old.bidder = env.caller)
    (hok : PUM.placeBid env st c t = .ok r) :
    r.transfers = [(env.caller, old.amount)]
      ∧ storeGet? r.state.bids (_bidKeyGenerator c t env.caller)
          = some ⟨env.caller, env.transferredCoins, env.timestamp⟩
      ∧ (r.state.bids.filter
          (fun kv => kv.1 == _bidKeyGenerator c t env.caller)).length = 1
      ∧ (∀ k, (st.bids.filter (fun kv => kv.1 == k)).length ≤ 1 →
          (r.state.bids.filter (fun kv => kv.1 == k)).length ≤ 1) := by
  simp only [PUM.placeBid] at hok
  split at hok
  · exact absurd hok (by simp)
  split at hok
  · exact absurd hok (by simp)
  rw [hold] at hok
  injection hok with h2
  subst h2
  refine ⟨?_, storeGet?_storeSet_self _ _ _, ?_, ?_⟩
  · simp [hfield]
  · simp [storeSet_filter_self]
  · intro k hk
    by_cases hkey : k = _bidKeyGenerator c t env.caller
    · subst hkey
      simp [storeSet_filter_self]
    · exact le_trans
        (storeSet_filter_ne_le st.bids (_bidKeyGenerator c t env.caller)
          k _ hkey) hk

/-- Bidder context: "bob" re-bids 150 at timestamp 700. -/
def envC5 : Env :=
  { caller := "bob", callee := "mkt", timestamp := 700,
    transferredCoins := 150,
    ownerOf := fun _ _ => "alice",
    isApprovedForAll := fun _ _ _ => true,
    isAddressEoa := fun _ => true }

/-- State with an offer on ("X", 7) and "bob"'s first bid of 100. -/
def stC5 : State :=
  { marketplaceFee := 5, marketplaceOwner := "mkOwner",
    collections := ["X"],
    offers := [(_keyGenerator "X" 7, ⟨"X", "7", 100, "alice", 2000, 500⟩)],
    bids := [(_bidKeyGenerator "X" 7 "bob", ⟨"bob", 100, 600⟩)] }

/-- The result of the re-bid: 100 refunded to "bob", one stored bid of
150. -/
def rC5 : CallResult :=
  ⟨{ marketplaceFee := 5, marketplaceOwner := "mkOwner",
     collections := ["X"],
     offers := [(_keyGenerator "X" 7, ⟨"X", "7", 100, "alice", 2000, 500⟩)],
     bids := [(_bidKeyGenerator "X" 7 "bob", ⟨"bob", 150, 700⟩)] },
   [("bob", 100)], []⟩

theorem C5_bid_replace_witness :
    storeGet? stC5.bids (_bidKeyGenerator "X" 7 "bob")
        = some ⟨"bob", 100, 600⟩
      ∧ PUM.placeBid envC5 stC5 "X" 7 = .ok rC5
      ∧ (rC5.transfers = [("bob", 100)]
        ∧ storeGet? rC5.state.bids (_bidKeyGenerator "X" 7 "bob")
            = some ⟨"bob", 150, 700⟩
        ∧ (rC5.state.bids.filter
            (fun kv => kv.1 == _bidKeyGenerator "X" 7 "bob")).length = 1
        ∧ ∀ k, (stC5.bids.filter (fun kv => kv.1 == k)).length ≤ 1 →
            (rC5.state.bids.filter (fun kv => kv.1 == k)).length ≤ 1) :=
  ⟨rfl, rfl,
    C5_bid_replace envC5 stC5 "X" 7 ⟨"bob", 100, 600⟩ rC5 rfl rfl rfl⟩
